import Mathlib

/-!
Verification of the summarization fine-tuning example
(`zzz/examples/summarization_finetune`): a shallow embedding of
`train_eval.py` and `pipeline.py`, followed by theorems about the embedded
definitions. Strings are embedded as `List Char` (Python strings are
sequences of code points); token ids as `ℤ`; fallible Python code returns
`Except String`.
-/

/-- The module-level constant `_SUMMARY_START_INDICATOR = "**Summary**: "`. -/
def SUMMARY_START_INDICATOR : List Char := "**Summary**: ".data

/-- Whether the pattern (first argument) occurs at the start of the text
(second argument); the primitive underlying Python substring search. -/
def startsWithList : List Char → List Char → Bool
  | [], _ => true
  | _ :: _, [] => false
  | p :: ps, c :: cs => if p = c then startsWithList ps cs else false

/-- Index of the first occurrence of `pat` in the text, if any: the
search underlying Python `str.index` / `str.find`. -/
def findSub (pat : List Char) : List Char → Option Nat
  | [] => if startsWithList pat [] then some 0 else none
  | c :: rest =>
    if startsWithList pat (c :: rest) then some 0
    else (findSub pat rest).map (· + 1)

/-- Dynamically-typed Python value: the two shapes relevant here are a
string and a dict (the batch object `Dataset.map(batched=True)` passes to
its function). -/
inductive PyVal where
  | str : List Char → PyVal
  | dict : List (String × PyVal) → PyVal

/-- Python `text.index(pat)`: on a str it returns the first occurrence or
raises `ValueError`; a dict has no `.index` attribute, so the attribute
access itself raises. -/
def pyIndexMethod : PyVal → List Char → Except String Nat
  | .str s, pat =>
    match findSub pat s with
    | some i => .ok i
    | none => .error "ValueError: substring not found"
  | .dict _, _ => .error "AttributeError: dict object has no attribute index"

/-- Python slice `text[:k]` (on a dict it raises; unreachable in
`extract_prompt`, which has already called `.index` on the value). -/
def pySliceTo : PyVal → Nat → Except String PyVal
  | .str s, k => .ok (.str (s.take k))
  | .dict _, _ => .error "TypeError: unhashable type slice"

/-- `train_eval.extract_prompt`: `summary_start_start = text.index(ind)`;
`if summary_start_start < 0: return f"{text} {ind}"` (this branch is dead,
`str.index` never returns a negative index — it raises instead);
`return text[:summary_start_start + len(ind)]`. -/
def extract_prompt (text : PyVal) : Except String PyVal :=
  match pyIndexMethod text SUMMARY_START_INDICATOR with
  | .error e => .error e
  | .ok i =>
    if i < 0 then
      match text with
      | .str s => .ok (.str (s ++ ' ' :: SUMMARY_START_INDICATOR))
      | .dict _ => .error "TypeError: unsupported operand"
    else
      pySliceTo text (i + SUMMARY_START_INDICATOR.length)

/-- `train_eval.sanitize`: `string.replace("NaN", "?")`, Python's
left-to-right non-overlapping replacement of every occurrence. -/
def sanitize : List Char → List Char
  | [] => []
  | [c] => [c]
  | [c, d] => [c, d]
  | c :: d :: e :: rest =>
    if c = 'N' ∧ d = 'a' ∧ e = 'N' then '?' :: sanitize rest
    else c :: sanitize (d :: e :: rest)

/-- Decides whether the text still contains an occurrence of the literal
token `"NaN"`. -/
def hasNaN : List Char → Bool
  | [] => false
  | c :: t => startsWithList ['N', 'a', 'N'] (c :: t) || hasNaN t

/-- `train_eval.ModelType`. -/
inductive ModelType where
  | seq_to_seq
  | causal
deriving DecidableEq, BEq

/-- `train_eval.ModelSelection` (a closed enum). -/
inductive ModelSelection where
  | flan_small
  | flan_base
  | flan_large
  | flan_xl
  | flan_xxl
  | gpt_j_6b
deriving DecidableEq, BEq

/-- The Python enum member's string value. -/
def ModelSelection.value : ModelSelection → String
  | .flan_small => "flan_small"
  | .flan_base => "flan_base"
  | .flan_large => "flan_large"
  | .flan_xl => "flan_xl"
  | .flan_xxl => "flan_xxl"
  | .gpt_j_6b => "gpt_j_6b"

/-- `sematic.types.HuggingFaceModelReference`, reduced to the fields
`pick_model` constructs (owner and repo). -/
structure HuggingFaceModelReference where
  owner : String
  repo : String
deriving DecidableEq

/-- `train_eval.ModelProperties` (`device_map` is either a strategy string
or absent in the source's two instances). -/
structure ModelProperties where
  model_type : ModelType
  pad_token : Option String
  load_in_8bit : Bool
  device_map : Option String
deriving DecidableEq

/-- `train_eval._FLAN_PROPS` (defaults: no pad token, no 8-bit, "auto"). -/
def FLAN_PROPS : ModelProperties := ⟨.seq_to_seq, none, false, some "auto"⟩

/-- `train_eval._GPTJ_PROPS`. -/
def GPTJ_PROPS : ModelProperties := ⟨.causal, some "eos_token", true, none⟩

/-- `train_eval._MODEL_PROPERTIES`: the per-selection policy table. -/
def MODEL_PROPERTIES : List (ModelSelection × ModelProperties) :=
  [(.flan_small, FLAN_PROPS), (.flan_base, FLAN_PROPS),
   (.flan_large, FLAN_PROPS), (.flan_xl, FLAN_PROPS),
   (.flan_xxl, FLAN_PROPS), (.gpt_j_6b, GPTJ_PROPS)]

/-- `pipeline.pick_model`: flan-prefixed selections resolve to a google
flan-t5 reference and the sequence-to-sequence family; everything else to
a hyphen-normalized causal reference. -/
def pick_model (model : ModelSelection) : HuggingFaceModelReference × ModelType :=
  if startsWithList "flan".data model.value.data then
    (⟨"google", "flan-t5-" ++ (model.value.replace "flan_" "")⟩, .seq_to_seq)
  else
    (⟨"tiiuae", model.value.replace "_" "-"⟩, .causal)

/-- `train_eval.DatasetConfig` (the dataset reference and column names are
plain strings here). -/
structure DatasetConfig where
  max_output_length : Nat
  max_input_length : Nat
  dataset_ref : String
  text_column : String
  summary_column : String
  max_train_samples : Option Nat
  max_test_samples : Option Nat

/-- The `test_size` computation in `train_eval.prepare_data`:
`test_size = 0.1`, overridden with
`max_test_samples / (max_test_samples + max_train_samples)` when both caps
are present (Python raises `ZeroDivisionError` when the denominator is 0). -/
def computeTestSize (max_train_samples max_test_samples : Option Nat) :
    Except String ℚ :=
  match max_train_samples, max_test_samples with
  | some tr, some te =>
    if te + tr = 0 then .error "ZeroDivisionError"
    else .ok ((te : ℚ) / ((te : ℚ) + (tr : ℚ)))
  | _, _ => .ok (1 / 10)

/-- Model of the external dataset service's
`Dataset.train_test_split(test_size=f, seed=42)`: the test part receives
`⌈f * n⌉` examples and the train part the rest (scikit-learn sizing, which
the dataset library follows). The fixed seed only shuffles; the sizes and
the carve itself are what the claims are about, so the shuffle is omitted. -/
def trainTestSplit {α : Type} (f : ℚ) (l : List α) : List α × List α :=
  let nTest := ⌈f * (l.length : ℚ)⌉₊
  (l.take (l.length - nTest), l.drop (l.length - nTest))

/-- A split dictionary as `prepare_data` sees it: a "train" split (always
assumed by the source) and optional "validation" and "test" splits. -/
structure DatasetDict (α : Type) where
  train : List α
  validation : Option (List α)
  test : Option (List α)

/-- Which split-resolution action `prepare_data` took. -/
inductive SplitAction where
  | keep
  | rename
  | carve
deriving DecidableEq

/-- The split-resolution portion of `train_eval.prepare_data`: if there is
no "validation" split and no "test" split, carve one out of "train" with
`train_test_split` (that introduces a "test" key, which the immediately
following `if "test" in dataset` block moves to "validation" and deletes);
if there is a "test" split and no "validation", it is renamed the same way. -/
def prepare_splits {α : Type} (max_train_samples max_test_samples : Option Nat)
    (d : DatasetDict α) : Except String (SplitAction × DatasetDict α) :=
  match d.validation with
  | some _ => .ok (.keep, d)
  | none =>
    match d.test with
    | some te => .ok (.rename, ⟨d.train, some te, none⟩)
    | none =>
      match computeTestSize max_train_samples max_test_samples with
      | .error e => .error e
      | .ok f =>
        let p := trainTestSplit f d.train
        .ok (.carve, ⟨p.1, some p.2, none⟩)

/-- The tensor dictionary `_seq_2_seq_preprocess_function` returns. -/
structure Seq2SeqModelInputs where
  input_ids : List (List ℤ)
  labels : List (List ℤ)

/-- `train_eval._seq_2_seq_preprocess_function`. The external tokenizer is
a parameter: it maps a batch of texts and a max length to one token-id row
per text (padding and truncation happen inside it). Label positions equal
to the tokenizer's pad id are rewritten to -100
(`labels[labels == tokenizer.pad_token_id] = -100`). -/
def seq_2_seq_preprocess_function
    (tokenize : List (List Char) → Nat → List (List ℤ)) (pad_token_id : ℤ)
    (cfg : DatasetConfig) (texts summaries : List (List Char)) :
    Seq2SeqModelInputs :=
  let inputs := texts.map
    (fun ctx => "**Please summarize**: ".data ++ ctx ++ ". **Summary**: ".data)
  let model_inputs := tokenize inputs cfg.max_input_length
  let labels := tokenize summaries cfg.max_output_length
  ⟨model_inputs, labels.map (List.map (fun v => if v = pad_token_id then -100 else v))⟩

/-- `sematic.types.PromptResponse`: sanitized prompt and response text. -/
structure PromptResponse where
  prompt : List Char
  response : List Char

/-- `train_eval.EvaluationResults`. -/
structure EvaluationResults where
  continuations : List PromptResponse

/-- The sequence-to-sequence branch of `train_eval.evaluate`: iterate the
split one row at a time, decode the input ids, generate (decode and
generation are the external model and tokenizer, passed as functions),
decode the output, and append a sanitized `PromptResponse` per example. -/
def evaluate_seq2seq (decode : List ℤ → List Char)
    (generate : List ℤ → List ℤ) (eval_rows : List (List ℤ)) :
    EvaluationResults :=
  ⟨eval_rows.map
    (fun r => ⟨sanitize (decode r), sanitize (decode (generate r))⟩)⟩

/-- The external `Dataset.map(fn, batched=True)`: apply `fn` to each batch
(a dict of column lists), aborting on the first exception. -/
def datasetMapBatched (fn : PyVal → Except String PyVal) :
    List PyVal → Except String (List PyVal)
  | [] => .ok []
  | b :: bs =>
    match fn b with
    | .error e => .error e
    | .ok v =>
      match datasetMapBatched fn bs with
      | .error e => .error e
      | .ok vs => .ok (v :: vs)

/-- The causal branch of `train_eval.evaluate` before its generation loop:
`eval_dataset.map(extract_prompt, batched=True)` — the single-text
`extract_prompt` is passed, not the locally defined batched
`extract_prompts`, so each batch dict is handed to `extract_prompt`. -/
def causal_prompt_extraction (batches : List PyVal) :
    Except String (List PyVal) :=
  datasetMapBatched extract_prompt batches

/-- A parameter of a Python function signature. -/
structure PyParam where
  name : String
  has_default : Bool

/-- The parameters of `train_eval.evaluate`:
`(model, eval_dataset, tokenizer, model_type)`, none with a default. -/
def evaluate_params : List PyParam :=
  [⟨"model", false⟩, ⟨"eval_dataset", false⟩,
   ⟨"tokenizer", false⟩, ⟨"model_type", false⟩]

/-- The number of positional arguments `pipeline.eval` passes to
`evaluate`: `evaluate(model.load(), eval_data, tokenizer)`. -/
def pipeline_eval_args : Nat := 3

/-- Python positional call binding: the call proceeds only when there are
no extra arguments and every parameter without a default is bound;
otherwise the call itself raises `TypeError`. -/
def python_call_binds (params : List PyParam) (n_args : Nat) : Bool :=
  n_args ≤ params.length && (params.drop n_args).all (·.has_default)

/-- The call `evaluate(model.load(), eval_data, tokenizer)` inside
`pipeline.eval`: `ok` means control enters `evaluate`'s body. -/
def pipeline_eval_call : Except String Unit :=
  if python_call_binds evaluate_params pipeline_eval_args then .ok ()
  else .error "TypeError: evaluate missing 1 required positional argument: model_type"

/-- `train_eval.SftPeftCallback.on_save`: overwrite the captured model
(initially `None`) with the model passed at this save event. -/
def sft_peft_on_save {M : Type} (state : Option M) (m : M) : Option M :=
  some m

/-- The callback's state after a training run whose save events passed the
listed models, in order (`self.model = None` initially). -/
def run_save_events {M : Type} (events : List M) : Option M :=
  events.foldl sft_peft_on_save none

/-- The causal branch of `train_eval.train`: `trainer.train()` runs (its
own result is not used), then `model = saver.model; return model` — the
returned value is whatever the callback captured, for any base model. -/
def train_causal {M : Type} (base_model : M) (save_events : List M) :
    Option M :=
  run_save_events save_events

lemma startsWithList_iff (p : List Char) :
    ∀ s : List Char, startsWithList p s = true ↔ ∃ t, s = p ++ t := by
  induction p with
  | nil =>
    intro s
    simp [startsWithList]
  | cons q qs ih =>
    intro s
    cases s with
    | nil => simp [startsWithList]
    | cons c cs =>
      by_cases hqc : q = c
      · subst hqc
        simp [startsWithList, ih]
      · simp only [startsWithList, if_neg hqc]
        constructor
        · intro h
          exact absurd h (by simp)
        · rintro ⟨t, ht⟩
          rw [List.cons_append] at ht
          injection ht with h1 h2
          exact absurd h1.symm hqc

lemma findSub_some (pat s : List Char) (i : Nat)
    (h : findSub pat s = some i) :
    startsWithList pat (s.drop i) = true ∧
      ∀ j, j < i → startsWithList pat (s.drop j) = false := by
  induction s generalizing i with
  | nil =>
    unfold findSub at h
    by_cases hp : startsWithList pat [] = true
    · rw [if_pos hp] at h
      obtain rfl : (0 : Nat) = i := by simpa using h
      simpa using hp
    · rw [if_neg hp] at h
      exact absurd h (by simp)
  | cons c rest ih =>
    unfold findSub at h
    by_cases hp : startsWithList pat (c :: rest) = true
    · rw [if_pos hp] at h
      obtain rfl : (0 : Nat) = i := by simpa using h
      exact ⟨by simpa using hp, by omega⟩
    · rw [if_neg hp] at h
      obtain ⟨i0, hi0, rfl⟩ : ∃ i0, findSub pat rest = some i0 ∧ i0 + 1 = i := by
        cases hfr : findSub pat rest with
        | none => rw [hfr] at h; exact absurd h (by simp)
        | some k => rw [hfr] at h; exact ⟨k, rfl, by simpa using h⟩
      obtain ⟨h1, h2⟩ := ih i0 hi0
      refine ⟨by simpa using h1, ?_⟩
      intro j hj
      cases j with
      | zero => simpa using (eq_false_of_ne_true hp)
      | succ j0 =>
        have : j0 < i0 := by omega
        simpa using h2 j0 this

lemma findSub_none (pat s : List Char) (h : findSub pat s = none) :
    ∀ i, startsWithList pat (s.drop i) = false := by
  induction s with
  | nil =>
    intro i
    unfold findSub at h
    by_cases hp : startsWithList pat [] = true
    · rw [if_pos hp] at h; exact absurd h (by simp)
    · simpa using (eq_false_of_ne_true hp)
  | cons c rest ih =>
    intro i
    unfold findSub at h
    by_cases hp : startsWithList pat (c :: rest) = true
    · rw [if_pos hp] at h; exact absurd h (by simp)
    · rw [if_neg hp] at h
      have hrest : findSub pat rest = none := by
        cases hfr : findSub pat rest with
        | none => rfl
        | some k => rw [hfr] at h; exact absurd h (by simp)
      cases i with
      | zero => simpa using (eq_false_of_ne_true hp)
      | succ i0 => simpa using ih hrest i0

lemma sanitize_head (l : List Char) (c : Char) (t : List Char)
    (h : sanitize l = c :: t) : c = '?' ∨ l.head? = some c := by
  match l with
  | [] => simp [sanitize] at h
  | [a] =>
    right
    simp only [sanitize] at h
    injection h with h1 h2
    simp [h1]
  | [a, b] =>
    right
    simp only [sanitize] at h
    injection h with h1 h2
    simp [h1]
  | a :: b :: e :: rest =>
    by_cases hc : a = 'N' ∧ b = 'a' ∧ e = 'N'
    · left
      simp only [sanitize, if_pos hc] at h
      injection h with h1 h2
      exact h1.symm
    · right
      simp only [sanitize, if_neg hc] at h
      injection h with h1 h2
      simp [h1]

lemma sanitize_pair (d e : Char) (rest t : List Char)
    (h : sanitize (d :: e :: rest) = 'a' :: 'N' :: t) : d = 'a' ∧ e = 'N' := by
  match rest with
  | [] =>
    simp only [sanitize] at h
    injection h with h1 h2
    injection h2 with h2 h3
    exact ⟨h1, h2⟩
  | r :: rs =>
    by_cases hc : d = 'N' ∧ e = 'a' ∧ r = 'N'
    · simp only [sanitize, if_pos hc] at h
      injection h with h1 h2
      exact absurd h1 (by decide)
    · simp only [sanitize, if_neg hc] at h
      injection h with h1 h2
      refine ⟨h1, ?_⟩
      rcases sanitize_head (e :: r :: rs) 'N' t h2 with h3 | h3
      · exact absurd h3 (by decide)
      · simpa using h3

lemma sanitize_no_nan (l : List Char) : hasNaN (sanitize l) = false := by
  induction l using sanitize.induct with
  | case1 => rfl
  | case2 c => simp [sanitize, hasNaN, startsWithList]
  | case3 c d => simp [sanitize, hasNaN, startsWithList]
  | case4 c d e rest hc ih =>
    simp only [sanitize, if_pos hc]
    simp only [hasNaN, ih, Bool.or_false]
    simp [startsWithList]
  | case5 c d e rest hc ih =>
    simp only [sanitize, if_neg hc]
    simp only [hasNaN, ih, Bool.or_false]
    cases hs : startsWithList ['N', 'a', 'N'] (c :: sanitize (d :: e :: rest)) with
    | false => rfl
    | true =>
      exfalso
      rw [startsWithList_iff] at hs
      obtain ⟨t, ht⟩ := hs
      simp only [List.cons_append, List.nil_append] at ht
      injection ht with h1 h2
      have hp := sanitize_pair d e rest t h2
      exact hc ⟨h1, hp.1, hp.2⟩

lemma sanitize_of_no_nan (l : List Char) (h : hasNaN l = false) :
    sanitize l = l := by
  induction l using sanitize.induct with
  | case1 => rfl
  | case2 c => rfl
  | case3 c d => rfl
  | case4 c d e rest hc ih =>
    exfalso
    obtain ⟨rfl, rfl, rfl⟩ := hc
    simp [hasNaN, startsWithList] at h
  | case5 c d e rest hc ih =>
    have hb : hasNaN (d :: e :: rest) = false := by
      revert h
      simp only [hasNaN, Bool.or_eq_false_iff]
      tauto
    simp only [sanitize, if_neg hc, ih hb]

lemma run_save_events_concat {M : Type} (l : List M) (x : M) :
    run_save_events (l ++ [x]) = some x := by
  simp [run_save_events, List.foldl_append, sft_peft_on_save]

/-- C1: contrary to the claim, `extract_prompt` does not fall back to
appending the marker on text that lacks `"**Summary**: "` — `str.index`
raises `ValueError` there (the `< 0` fallback branch is dead), so the call
raises instead of returning the text with the marker appended. -/
theorem extract_prompt_no_marker_raises :
    extract_prompt (.str "Some text".data) =
      .error "ValueError: substring not found" := by rfl

/-- C2: the call `evaluate(model.load(), eval_data, tokenizer)` in
`pipeline.eval` passes 3 positional arguments while `evaluate` has 4
parameters without defaults, so the binding raises `TypeError` and control
never enters `evaluate`'s body — evaluation through the pipeline never
returns an `EvaluationResults` value. -/
theorem pipeline_eval_call_fails :
    pipeline_eval_call =
      .error "TypeError: evaluate missing 1 required positional argument: model_type" ∧
    python_call_binds evaluate_params pipeline_eval_args = false := by
  constructor
  · rfl
  · rfl

/-- C3: for every `ModelSelection` member, `pick_model` resolves to the
sequence-to-sequence family exactly when the selection's value starts with
"flan" (and to causal otherwise), and the `_MODEL_PROPERTIES` table has an
entry for every member, so the properties lookup never fails. -/
theorem registry_total_and_family_convention :
    ∀ m : ModelSelection,
      (MODEL_PROPERTIES.lookup m).isSome = true ∧
      ((pick_model m).2 == ModelType.seq_to_seq) =
        startsWithList "flan".data m.value.data ∧
      ((pick_model m).2 == ModelType.causal) =
        !(startsWithList "flan".data m.value.data) := by
  intro m
  cases m <;> exact ⟨by decide, by decide, by decide⟩

/-- C5: in `_seq_2_seq_preprocess_function`, for every batch, every
position of the tokenized target tensor whose value equals the
tokenizer's pad token id is rewritten to -100 in the resulting `labels`,
and every other position keeps its tokenized value (stated positionally:
row `i`, column `j` of `labels` is the pad-masked value of row `i`,
column `j` of the raw target tokenization, with row count preserved). -/
theorem seq2seq_label_masking
    (tokenize : List (List Char) → Nat → List (List ℤ)) (pad : ℤ)
    (cfg : DatasetConfig) (texts summaries : List (List Char)) :
    (seq_2_seq_preprocess_function tokenize pad cfg texts summaries).labels.length =
      (tokenize summaries cfg.max_output_length).length ∧
    ∀ i j : Nat,
      ((seq_2_seq_preprocess_function tokenize pad cfg texts summaries).labels[i]?.bind
          (fun row => row[j]?)) =
        (((tokenize summaries cfg.max_output_length)[i]?.bind
          (fun row => row[j]?)).map (fun v => if v = pad then -100 else v)) := by
  constructor
  · simp [seq_2_seq_preprocess_function]
  · intro i j
    simp only [seq_2_seq_preprocess_function, List.getElem?_map]
    cases h : (tokenize summaries cfg.max_output_length)[i]? with
    | none => simp
    | some row => simp [List.getElem?_map, Option.map_bind]

/-- C7: the claim holds on the sequence-to-sequence branch of `evaluate`
(one sanitized `PromptResponse` per example, in split order), but the
causal branch never reaches its generation loop: `Dataset.map` with
`batched=True` hands a dict batch to `extract_prompt` (the batched
`extract_prompts` defined next to it is never used), and `.index` on a
dict raises, so causal evaluation fails on any split with a batch. -/
theorem evaluate_per_example_and_causal_failure :
    (∀ (decode : List ℤ → List Char) (generate : List ℤ → List ℤ)
        (rows : List (List ℤ)),
      (evaluate_seq2seq decode generate rows).continuations.length = rows.length ∧
      ∀ i : Nat,
        (evaluate_seq2seq decode generate rows).continuations[i]? =
          (rows[i]?).map
            (fun r => ⟨sanitize (decode r), sanitize (decode (generate r))⟩)) ∧
    (∀ (cols : List (String × PyVal)) (batches : List PyVal),
      causal_prompt_extraction (PyVal.dict cols :: batches) =
        .error "AttributeError: dict object has no attribute index") := by
  constructor
  · intro decode generate rows
    constructor
    · simp [evaluate_seq2seq]
    · intro i
      simp [evaluate_seq2seq, List.getElem?_map]
  · intro cols batches
    rfl

/-- C9: `sanitize` is idempotent, leaves no occurrence of the literal
token "NaN" in its output (each is replaced by "?"), and
`sanitize("Result: NaN") = "Result: ?"`. -/
theorem sanitize_spec :
    (∀ s : List Char, sanitize (sanitize s) = sanitize s) ∧
    (∀ s : List Char, hasNaN (sanitize s) = false) ∧
    sanitize ("Result: NaN".data) = "Result: ?".data := by
  refine ⟨fun s => sanitize_of_no_nan _ (sanitize_no_nan s), sanitize_no_nan, ?_⟩
  decide

/-- C10: on the causal path, `train` returns the model recorded by
`SftPeftCallback` at its last save event, independent of the base model
the trainer ran on; with no save events it returns `None` (the callback's
initial value) rather than a trained model or an error. -/
theorem train_causal_returns_last_save :
    ∀ (M : Type) (base : M) (events : List M),
      train_causal base events = events.getLast? ∧
      train_causal base ([] : List M) = none := by
  intro M base events
  constructor
  · rcases List.eq_nil_or_concat events with rfl | ⟨l, x, rfl⟩
    · rfl
    · rw [List.concat_eq_append, train_causal, run_save_events_concat,
        List.getLast?_concat]
  · rfl

/-- C4: the carve fraction in `prepare_data` equals
`max_test_samples / (max_test_samples + max_train_samples)` whenever both
caps are specified (and their sum is positive, the only case where the
Python division is defined) — exactly 1/10 for caps 900 and 100 — and
defaults to 0.1 when either cap is absent. -/
theorem split_fraction_spec :
    computeTestSize (some 900) (some 100) = .ok (1 / 10) ∧
    (∀ tr te : Nat, 0 < te + tr →
      computeTestSize (some tr) (some te) =
        .ok ((te : ℚ) / ((te : ℚ) + (tr : ℚ)))) ∧
    (∀ o : Option Nat, computeTestSize none o = .ok (1 / 10)) ∧
    (∀ o : Option Nat, computeTestSize o none = .ok (1 / 10)) := by
  refine ⟨?_, ?_, ?_, ?_⟩
  · norm_num [computeTestSize]
  · intro tr te h
    simp only [computeTestSize]
    rw [if_neg (by omega)]
  · intro o
    cases o <;> rfl
  · intro o
    cases o <;> rfl

/-- Witness for C4 at caps 900/100. -/
theorem split_fraction_spec_witness :
    computeTestSize (some 900) (some 100) =
      .ok (((100 : Nat) : ℚ) / (((100 : Nat) : ℚ) + ((900 : Nat) : ℚ))) :=
  split_fraction_spec.2.1 900 100 (by norm_num)

/-- C6: split resolution in `prepare_data` when no "validation" split is
present: with a "test" split, that split is renamed to "validation" with
its example list (hence its count) unchanged and no "test" key remains;
with neither, a validation split of the proportional size is carved out of
"train" (seeded split) and no "test" key remains — the two actions are
driven by mutually exclusive conditions, so exactly one executes. -/
theorem prepare_splits_resolution {α : Type} (maxTr maxTe : Option Nat)
    (d : DatasetDict α) (hv : d.validation = none) :
    (∀ te, d.test = some te →
      prepare_splits maxTr maxTe d =
        .ok (.rename, ⟨d.train, some te, none⟩)) ∧
    (d.test = none → ∀ f : ℚ, computeTestSize maxTr maxTe = .ok f →
      ∃ tr va, prepare_splits maxTr maxTe d = .ok (.carve, ⟨tr, some va, none⟩) ∧
        va.length = min ⌈f * (d.train.length : ℚ)⌉₊ d.train.length ∧
        tr.length + va.length = d.train.length ∧
        tr ++ va = d.train) := by
  obtain ⟨train, valid, test⟩ := d
  simp only at hv
  subst hv
  constructor
  · rintro te rfl
    rfl
  · rintro rfl f hf
    refine ⟨(trainTestSplit f train).1, (trainTestSplit f train).2, ?_, ?_, ?_, ?_⟩
    · simp only [prepare_splits, hf]
    · simp only [trainTestSplit, List.length_drop, List.length_take]
      omega
    · simp only [trainTestSplit, List.length_drop, List.length_take]
      omega
    · simp only [trainTestSplit]
      exact List.take_append_drop _ _

/-- Witness for C6: the rename action on a train+test dictionary, and the
carve action (with its size bookkeeping) on a train-only dictionary. -/
theorem prepare_splits_resolution_witness :
    (prepare_splits none none
        (⟨["x"], none, some ["t"]⟩ : DatasetDict String) =
      .ok (.rename, ⟨["x"], some ["t"], none⟩)) ∧
    (∃ tr va,
      prepare_splits (some 900) (some 100)
          (⟨[0, 1, 2, 3, 4, 5, 6, 7, 8, 9], none, none⟩ : DatasetDict Nat) =
        .ok (.carve, ⟨tr, some va, none⟩) ∧
      va.length =
        min ⌈(1 / 10 : ℚ) * (([0, 1, 2, 3, 4, 5, 6, 7, 8, 9] : List Nat).length : ℚ)⌉₊
          ([0, 1, 2, 3, 4, 5, 6, 7, 8, 9] : List Nat).length ∧
      tr.length + va.length = ([0, 1, 2, 3, 4, 5, 6, 7, 8, 9] : List Nat).length ∧
      tr ++ va = [0, 1, 2, 3, 4, 5, 6, 7, 8, 9]) := by
  constructor
  · exact (prepare_splits_resolution none none _ rfl).1 _ rfl
  · exact (prepare_splits_resolution (some 900) (some 100)
      (⟨[0, 1, 2, 3, 4, 5, 6, 7, 8, 9], none, none⟩ : DatasetDict Nat) rfl).2
      rfl (1 / 10) (by norm_num [computeTestSize])

/-- C8: for every text containing the marker `"**Summary**: "`,
`extract_prompt` returns exactly the prefix of the text up to and
including the first occurrence of the marker (the returned piece extends
to an occurrence, and no occurrence starts earlier). -/
theorem extract_prompt_first_marker (t : List Char)
    (h : ∃ a b, t = a ++ SUMMARY_START_INDICATOR ++ b) :
    ∃ a b, t = a ++ SUMMARY_START_INDICATOR ++ b ∧
      extract_prompt (.str t) = .ok (.str (a ++ SUMMARY_START_INDICATOR)) ∧
      ∀ a2 b2, t = a2 ++ SUMMARY_START_INDICATOR ++ b2 →
        a.length ≤ a2.length := by
  obtain ⟨a0, b0, hab⟩ := h
  cases hfs : findSub SUMMARY_START_INDICATOR t with
  | none =>
    exfalso
    have hfalse := findSub_none _ _ hfs a0.length
    rw [hab, List.append_assoc, List.drop_left] at hfalse
    have htrue :
        startsWithList SUMMARY_START_INDICATOR
          (SUMMARY_START_INDICATOR ++ b0) = true :=
      (startsWithList_iff _ _).mpr ⟨b0, rfl⟩
    rw [htrue] at hfalse
    exact absurd hfalse (by simp)
  | some i =>
    obtain ⟨hpre, hmin⟩ := findSub_some _ _ _ hfs
    rw [startsWithList_iff] at hpre
    obtain ⟨b2, hb2⟩ := hpre
    have hne : SUMMARY_START_INDICATOR ≠ [] := by decide
    have hiLen : i ≤ t.length := by
      by_contra hlt
      push_neg at hlt
      have hnil : t.drop i = [] := List.drop_eq_nil_of_le (le_of_lt hlt)
      rw [hnil] at hb2
      exact hne (List.append_eq_nil.mp hb2.symm).1
    have hlen : (t.take i).length = i := by
      rw [List.length_take]
      omega
    have ht : t = t.take i ++ SUMMARY_START_INDICATOR ++ b2 := by
      conv_lhs => rw [← List.take_append_drop i t, hb2]
      rw [List.append_assoc]
    refine ⟨t.take i, b2, ht, ?_, ?_⟩
    · have hidx :
          pyIndexMethod (.str t) SUMMARY_START_INDICATOR = .ok i := by
        simp only [pyIndexMethod, hfs]
      simp only [extract_prompt, hidx, Nat.not_lt_zero, if_false]
      simp only [pySliceTo]
      have htake : t.take (i + SUMMARY_START_INDICATOR.length) =
          t.take i ++ SUMMARY_START_INDICATOR := by
        conv_lhs => rw [ht]
        exact List.take_left' (by rw [List.length_append, hlen])
      rw [htake]
    · intro a2 bb2 h2
      rw [hlen]
      by_contra hcon
      push_neg at hcon
      have hfalse := hmin a2.length hcon
      rw [h2, List.append_assoc, List.drop_left] at hfalse
      have htrue :
          startsWithList SUMMARY_START_INDICATOR
            (SUMMARY_START_INDICATOR ++ bb2) = true :=
        (startsWithList_iff _ _).mpr ⟨bb2, rfl⟩
      rw [htrue] at hfalse
      exact absurd hfalse (by simp)

/-- Witness for C8 on the text "A. **Summary**: B". -/
theorem extract_prompt_first_marker_witness :
    ∃ a b, "A. **Summary**: B".data = a ++ SUMMARY_START_INDICATOR ++ b ∧
      extract_prompt (.str "A. **Summary**: B".data) =
        .ok (.str (a ++ SUMMARY_START_INDICATOR)) ∧
      ∀ a2 b2, "A. **Summary**: B".data = a2 ++ SUMMARY_START_INDICATOR ++ b2 →
        a.length ≤ a2.length :=
  extract_prompt_first_marker _ ⟨"A. ".data, "B".data, by decide⟩

